import Mathlib

/-!
Verification of the Philippine labor-market analytics data pipeline
(`src/data/data_loader.py`, `src/data/data_validator.py`,
`src/data/data_preprocessor.py`, `src/utils/helpers.py`).

The pandas/numpy operations used by the code are shallowly embedded:

* floating-point cell values are modelled by `PNum`, rationals extended
  with `nan`, `+inf` and `-inf`, with IEEE-style propagation for the
  arithmetic the code performs (`x/0 = ±inf`, `0/0 = nan`, `nan`
  propagates); the sign of floating-point zero is not tracked, since no
  negative zero arises in the modelled pipeline;
* a DataFrame is a column-name list plus a row-major list of cells
  (`DF`); `dropna` removes rows containing `nan` (infinities are kept,
  as in pandas with the default `mode.use_inf_as_na = False`);
* Python exceptions become `Option`/`Except` results.
-/

/-- IEEE-style extended value for a pandas float cell: a rational,
`nan` (which is also the missing-value marker of a float column),
or a signed infinity. -/
inductive PNum where
  | nan
  | pinf
  | ninf
  | fin (q : ℚ)
deriving DecidableEq, Repr

/-- Negation of an extended value. -/
def PNum.neg : PNum → PNum
  | .nan => .nan
  | .pinf => .ninf
  | .ninf => .pinf
  | .fin q => .fin (-q)

/-- Addition with IEEE propagation (`+inf + -inf = nan`). -/
def PNum.add : PNum → PNum → PNum
  | .nan, _ => .nan
  | _, .nan => .nan
  | .pinf, .ninf => .nan
  | .ninf, .pinf => .nan
  | .pinf, _ => .pinf
  | _, .pinf => .pinf
  | .ninf, _ => .ninf
  | _, .ninf => .ninf
  | .fin a, .fin b => .fin (a + b)

/-- Subtraction, derived from addition and negation. -/
def PNum.sub (a b : PNum) : PNum := a.add b.neg

/-- Multiplication with IEEE propagation (`0 * inf = nan`). -/
def PNum.mul : PNum → PNum → PNum
  | .nan, _ => .nan
  | _, .nan => .nan
  | .pinf, .pinf => .pinf
  | .pinf, .ninf => .ninf
  | .ninf, .pinf => .ninf
  | .ninf, .ninf => .pinf
  | .pinf, .fin b => if b = 0 then .nan else if 0 < b then .pinf else .ninf
  | .fin a, .pinf => if a = 0 then .nan else if 0 < a then .pinf else .ninf
  | .ninf, .fin b => if b = 0 then .nan else if 0 < b then .ninf else .pinf
  | .fin a, .ninf => if a = 0 then .nan else if 0 < a then .ninf else .pinf
  | .fin a, .fin b => .fin (a * b)

/-- Division with IEEE propagation: `0/0 = nan`, `x/0 = ±inf` for
`x ≠ 0` (the denominator zero is a positive zero in the modelled
pipeline), `x/±inf = 0`, `inf/inf = nan`. -/
def PNum.div : PNum → PNum → PNum
  | .nan, _ => .nan
  | _, .nan => .nan
  | .pinf, .pinf => .nan
  | .pinf, .ninf => .nan
  | .ninf, .pinf => .nan
  | .ninf, .ninf => .nan
  | .pinf, .fin b => if 0 ≤ b then .pinf else .ninf
  | .ninf, .fin b => if 0 ≤ b then .ninf else .pinf
  | .fin _, .pinf => .fin 0
  | .fin _, .ninf => .fin 0
  | .fin a, .fin b =>
    if b = 0 then (if a = 0 then .nan else if 0 < a then .pinf else .ninf)
    else .fin (a / b)

/-- Strict `<` as floats compare: any comparison with `nan` is false. -/
def PNum.lt : PNum → PNum → Bool
  | .nan, _ => false
  | _, .nan => false
  | .pinf, _ => false
  | .ninf, .ninf => false
  | .ninf, _ => true
  | .fin _, .pinf => true
  | .fin _, .ninf => false
  | .fin a, .fin b => decide (a < b)

/-- Non-strict `≤` as floats compare: any comparison with `nan` is false. -/
def PNum.le : PNum → PNum → Bool
  | .nan, _ => false
  | _, .nan => false
  | .ninf, _ => true
  | .pinf, .pinf => true
  | .pinf, _ => false
  | .fin _, .pinf => true
  | .fin _, .ninf => false
  | .fin a, .fin b => decide (a ≤ b)

/-- Absolute value of an extended value. -/
def PNum.abs : PNum → PNum
  | .nan => .nan
  | .pinf => .pinf
  | .ninf => .pinf
  | .fin q => .fin |q|

/-- A first-of-month calendar date as produced by
`pd.Timestamp(year=y, month=m, day=1)`; only `year` and `month` are
stored because the loader only ever constructs day-1 dates. -/
structure QDate where
  year : Int
  month : Int
deriving DecidableEq, Repr

/-- One cell of a DataFrame: a float value, a string, or a timestamp. -/
inductive Cell where
  | num (x : PNum)
  | str (s : String)
  | date (d : QDate)
deriving DecidableEq, Repr

/-- The float value of a cell; non-numeric cells read as `nan` (the
embedded numeric operations are only applied to numeric columns, as in
the source). -/
def Cell.toPNum : Cell → PNum
  | .num x => x
  | .str _ => .nan
  | .date _ => .nan

/-- A pandas DataFrame: ordered column names and row-major cells.
Rows are kept aligned with `cols` by every operation below. -/
structure DF where
  cols : List String
  rows : List (List Cell)
deriving DecidableEq, Repr

/-- Position of a column name, if present. -/
def DF.colIdx (df : DF) (c : String) : Option Nat :=
  df.cols.findIdx? (fun x => x = c)

/-- Column projection `df[c]`; an absent column reads as empty
(the claims only project columns that exist). -/
def DF.col (df : DF) (c : String) : List Cell :=
  match df.colIdx c with
  | none => []
  | some i => df.rows.map (fun r => r.getD i (Cell.num .nan))

/-- Column assignment `df[c] = vs`: overwrite in place if `c` exists,
otherwise append it as the last column. -/
def DF.setCol (df : DF) (c : String) (vs : List Cell) : DF :=
  match df.colIdx c with
  | some i => { df with rows := List.zipWith (fun r v => r.set i v) df.rows vs }
  | none => { cols := df.cols ++ [c],
              rows := List.zipWith (fun r v => r ++ [v]) df.rows vs }

/-- `df.dropna()`: keep the rows in which no cell is `nan`
(infinities are kept, matching pandas defaults). -/
def DF.dropna (df : DF) : DF :=
  { df with rows := df.rows.filter (fun r => decide (Cell.num .nan ∉ r)) }

example : PNum.div (.fin 5) (.fin 0) = .pinf := by decide
example : PNum.div (.fin 0) (.fin 0) = .nan := by decide
example : PNum.div (.fin (-3)) (.fin 0) = .ninf := by decide

/-! ## Python string and integer primitives used by `helpers.py` -/

/-- Characters removed by Python `str.strip()` / split on by `str.split()`
(ASCII whitespace; exotic unicode whitespace is not modelled). -/
def isPySpace (c : Char) : Bool :=
  c = ' ' || c = '\t' || c = '\n' || c = '\r' || c = '\x0b' || c = '\x0c'

/-- Python `str.strip()`. -/
def pyStrip (s : String) : String :=
  ⟨((s.data.dropWhile isPySpace).reverse.dropWhile isPySpace).reverse⟩

/-- Worker for `pySplit`: `acc` holds the characters of the current
token, reversed. -/
def pySplitAux : List Char → List Char → List String
  | [], acc => if acc.isEmpty then [] else [⟨acc.reverse⟩]
  | c :: rest, acc =>
    if isPySpace c then
      if acc.isEmpty then pySplitAux rest []
      else ⟨acc.reverse⟩ :: pySplitAux rest []
    else pySplitAux rest (c :: acc)

/-- Python `str.split()` with no argument: split on whitespace runs,
discarding empty pieces. -/
def pySplit (s : String) : List String := pySplitAux s.data []

/-- Numeric value of an ASCII digit. -/
def digitVal (c : Char) : Nat := c.toNat - 48

/-- Digit tail of a Python integer literal: digits with single
underscores allowed between digits. -/
def pyDigits (acc : Nat) : List Char → Option Nat
  | [] => some acc
  | c :: rest =>
    if c.isDigit then pyDigits (acc * 10 + digitVal c) rest
    else if c = '_' then
      match rest with
      | d :: rest2 => if d.isDigit then pyDigits (acc * 10 + digitVal d) rest2 else none
      | [] => none
    else none

/-- Unsigned part of Python `int(...)`: at least one digit, then
`pyDigits`. -/
def pyIntCore : List Char → Option Nat
  | [] => none
  | c :: rest => if c.isDigit then pyDigits (digitVal c) rest else none

/-- Python `int(s)` on a string: strips whitespace, optional sign,
ASCII digits with underscores between digits; `none` models
`ValueError`. -/
def pyInt (s : String) : Option Int :=
  match (pyStrip s).data with
  | '+' :: rest => (pyIntCore rest).map (fun n => (n : Int))
  | '-' :: rest => (pyIntCore rest).map (fun n => -(n : Int))
  | cs => (pyIntCore cs).map (fun n => (n : Int))

/-- Python `s.replace("Q", "")`: drop every capital `Q`. -/
def removeQ (s : String) : String := ⟨s.data.filter (fun c => c ≠ 'Q')⟩

/-! ## `helpers.parse_quarter` and `helpers.quarter_to_date` -/

/-- `helpers.parse_quarter`: split the stripped label on whitespace,
convert token 0 with `int`, and token 1 with all `Q`s removed with
`int`; any exception (missing token, failed conversion) is caught and
re-raised as `ValueError`, modelled by `none`. -/
def parse_quarter (quarter_str : String) : Option (Int × Int) :=
  match pySplit (pyStrip quarter_str) with
  | p0 :: p1 :: _ =>
    match pyInt p0, pyInt (removeQ p1) with
    | some y, some q => some (y, q)
    | _, _ => none
  | _ => none

/-- Whether `pd.Timestamp(year=y, month=m, day=1)` succeeds: the month
must be a real month and the day-1 date must lie in the representable
timestamp range [1677-09-21, 2262-04-11]. -/
def timestampOk (y m : Int) : Bool :=
  (1 ≤ m && m ≤ 12) &&
  (1677 < y || (y = 1677 && 10 ≤ m)) &&
  (y < 2262 || (y = 2262 && m ≤ 4))

/-- `helpers.quarter_to_date`: parse the label, map quarter `q` to
month `(q - 1) * 3 + 1`, and build the day-1 timestamp; `none` models
the `ValueError` raised by `parse_quarter` or by the `pd.Timestamp`
constructor on an impossible month/out-of-range year. -/
def quarter_to_date (quarter_str : String) : Option QDate :=
  match parse_quarter quarter_str with
  | none => none
  | some (y, q) =>
    let month := (q - 1) * 3 + 1
    if timestampOk y month then some ⟨y, month⟩ else none

/-- `helpers.calculate_change`: percentage change with a safe zero
denominator. -/
def calculate_change (current previous : ℚ) : ℚ :=
  if previous = 0 then 0 else ((current - previous) / previous) * 100

/-- `helpers.safe_divide`. -/
def safe_divide (numerator denominator : ℚ) (default : ℚ := 0) : ℚ :=
  if denominator ≠ 0 then numerator / denominator else default

/-- Days since the Unix epoch of a civil date (Hinnant's
`days_from_civil`); evaluated only on the loader's day-1 dates, whose
years are positive, so all integer divisions are on non-negative
operands. -/
def daysFromCivil (y m d : Int) : Int :=
  let y2 := if m ≤ 2 then y - 1 else y
  let era := (if 0 ≤ y2 then y2 else y2 - 399) / 400
  let yoe := y2 - era * 400
  let doy := (153 * (if 2 < m then m - 3 else m + 9) + 2) / 5 + d - 1
  let doe := yoe * 365 + yoe / 4 - yoe / 100 + doy
  era * 146097 + doe - 719468

/-- Day number of a loader date (always day 1 of its month). -/
def QDate.dayNumber (d : QDate) : Int := daysFromCivil d.year d.month 1

/-- `Config.REQUIRED_COLUMNS` from `utils/config.py`. -/
def Config.REQUIRED_COLUMNS : List String := ["Quarter", "LFPR", "ER", "UR", "UER"]

example : parse_quarter "2014 Q1" = some (2014, 1) := by decide
example : parse_quarter "2014 Q5" = some (2014, 5) := by decide
example : parse_quarter "2014" = none := by decide
example : parse_quarter "20x4 Q1" = none := by decide
example : quarter_to_date "2014 Q3" = some ⟨2014, 7⟩ := by decide
example : quarter_to_date "2014 Q5" = none := by decide
example : daysFromCivil 1970 1 1 = 0 := by decide
example : daysFromCivil 2014 4 1 - daysFromCivil 2014 1 1 = 90 := by decide
example : daysFromCivil 2014 7 1 - daysFromCivil 2014 4 1 = 91 := by decide
example : daysFromCivil 2014 1 1 - daysFromCivil 2013 10 1 = 92 := by decide

/-! ## Series operations (pandas `shift`, `rolling.mean`, `pct_change`) -/

/-- Worker for `ffill`: carry the last non-`nan` value forward. -/
def ffillAux : PNum → List PNum → List PNum
  | _, [] => []
  | last, x :: xs => if x = .nan then last :: ffillAux last xs else x :: ffillAux x xs

/-- pandas forward fill (`fill_method='pad'` of `pct_change`): each
`nan` becomes the last preceding non-`nan` value; leading `nan`s stay. -/
def ffill (xs : List PNum) : List PNum := ffillAux .nan xs

/-- pandas `Series.shift(p)` on a float series: value `p` rows back,
`nan` for the first `p` rows. -/
def shiftPNum (xs : List PNum) (p : Nat) : List PNum :=
  (List.range xs.length).map (fun t => if t < p then .nan else xs.getD (t - p) .nan)

/-- pandas `Series.pct_change(periods=p)` with its default forward
fill: `filled[t] / filled[t-p] - 1`. -/
def pctChange (xs : List PNum) (p : Nat) : List PNum :=
  let f := ffill xs
  List.zipWith (fun a b => (a.div b).sub (.fin 1)) f (shiftPNum f p)

/-- pandas `Series.rolling(window, center=False).mean()` with the
default `min_periods = window`: trailing mean of the last `window`
values, `nan` while fewer than `window` rows or when the window
contains a `nan`. -/
def rollingMean (xs : List PNum) (window : Nat) : List PNum :=
  (List.range xs.length).map (fun t =>
    if t + 1 < window then .nan
    else
      let w := (xs.drop (t + 1 - window)).take window
      if w.any (fun x => decide (x = .nan)) then .nan
      else (w.foldl PNum.add (.fin 0)).div (.fin (window : ℚ)))

/-- pandas `Series.shift(k)` at the cell level (the fill value is the
float `nan`, as in pandas). -/
def shiftCells (xs : List Cell) (k : Nat) : List Cell :=
  (List.range xs.length).map
    (fun t => if t < k then Cell.num .nan else xs.getD (t - k) (Cell.num .nan))

/-- `helpers.create_lag_features`: one shifted column named `lag_k`
per requested lag, in request order. -/
def create_lag_features (data : List Cell) (lags : List Nat) : List (String × List Cell) :=
  lags.map (fun lag => ("lag_" ++ toString lag, shiftCells data lag))

/-- `helpers.calculate_moving_average`: trailing rolling mean. -/
def calculate_moving_average (data : List Cell) (window : Nat) : List Cell :=
  (rollingMean (data.map Cell.toPNum) window).map Cell.num

/-! ## `DataPreprocessor` (`data_preprocessor.py`)

The constructor stores a defensive copy of its input frame; copying is
the identity on immutable values, so the stored frame is just `data`. -/

/-- The preprocessor and its stored frame. -/
structure DataPreprocessor where
  data : DF
deriving DecidableEq, Repr

/-- `np.sin(2π q / 4)` at the integral quarter numbers 1–4, at the
exact trigonometric values (the float rounding error of `np.sin`,
about `1.2e-16` at `sin(π)`, is not tracked; these cells are never
compared by the code). Non-quarter inputs are abstracted to 0. -/
def sinQuarter : PNum → PNum
  | .fin q => .fin (if q = 1 then 1 else if q = 2 then 0 else if q = 3 then -1 else 0)
  | _ => .nan

/-- `np.cos(2π q / 4)` at the integral quarter numbers 1–4, at the
exact trigonometric values; see `sinQuarter`. -/
def cosQuarter : PNum → PNum
  | .fin q => .fin (if q = 1 then 0 else if q = 2 then -1 else if q = 3 then 0 else 1)
  | _ => .nan

/-- `DataPreprocessor.create_temporal_features`: `Year`, `QuarterNum`
(`(month + 2) / 3` as pandas `dt.quarter`), `Month`, and the cyclical
`Quarter_sin` / `Quarter_cos` encodings, derived from `Date` on a copy
of the stored frame. -/
def DataPreprocessor.create_temporal_features (self : DataPreprocessor) : DF :=
  let df := self.data
  let dates := df.col "Date"
  let df := df.setCol "Year" (dates.map (fun c => match c with
    | .date d => Cell.num (.fin (d.year : ℚ))
    | _ => Cell.num .nan))
  let df := df.setCol "QuarterNum" (dates.map (fun c => match c with
    | .date d => Cell.num (.fin (((d.month + 2) / 3 : ℤ) : ℚ))
    | _ => Cell.num .nan))
  let df := df.setCol "Month" (dates.map (fun c => match c with
    | .date d => Cell.num (.fin (d.month : ℚ))
    | _ => Cell.num .nan))
  let df := df.setCol "Quarter_sin"
    ((df.col "QuarterNum").map (fun c => Cell.num (sinQuarter c.toPNum)))
  let df := df.setCol "Quarter_cos"
    ((df.col "QuarterNum").map (fun c => Cell.num (cosQuarter c.toPNum)))
  df

/-- `DataPreprocessor.add_lag_features`: for each indicator, the
columns of `create_lag_features` renamed `{indicator}_{lag_k}` and
concatenated on the right of a copy of the stored frame. -/
def DataPreprocessor.add_lag_features (self : DataPreprocessor)
    (indicators : List String) (lags : List Nat) : DF :=
  indicators.foldl (fun df indicator =>
    (create_lag_features (df.col indicator) lags).foldl
      (fun d nc => d.setCol (indicator ++ "_" ++ nc.1) nc.2) df)
    self.data

/-- `DataPreprocessor.add_moving_averages`: one `{indicator}_ma{w}`
column per indicator/window pair, on a copy of the stored frame. -/
def DataPreprocessor.add_moving_averages (self : DataPreprocessor)
    (indicators : List String) (windows : List Nat) : DF :=
  indicators.foldl (fun df indicator =>
    windows.foldl (fun d window =>
      d.setCol (indicator ++ "_ma" ++ toString window)
        (calculate_moving_average (d.col indicator) window)) df)
    self.data

/-- The loop body of `add_rate_of_change`:
`df[indicator].pct_change(periods=period) * 100` as a cell column. -/
def rocColumn (cells : List Cell) (period : Nat) : List Cell :=
  (pctChange (cells.map Cell.toPNum) period).map (fun x => Cell.num (x.mul (.fin 100)))

/-- `DataPreprocessor.add_rate_of_change`: one
`{indicator}_change{p}` column per indicator/period pair, holding
`pct_change(p) * 100`, on a copy of the stored frame. -/
def DataPreprocessor.add_rate_of_change (self : DataPreprocessor)
    (indicators : List String) (periods : List Nat := [1, 4]) : DF :=
  indicators.foldl (fun df indicator =>
    periods.foldl (fun d period =>
      d.setCol (indicator ++ "_change" ++ toString period)
        (rocColumn (d.col indicator) period)) df)
    self.data

/-- Non-`nan` entries of a series (pandas aggregations skip `nan`). -/
def nonNanVals (xs : List PNum) : List PNum :=
  xs.filter (fun x => decide (x ≠ .nan))

/-- Finite entries of a series. -/
def finiteVals (xs : List PNum) : List ℚ :=
  xs.filterMap (fun x => match x with | .fin q => some q | _ => none)

/-- pandas `Series.mean()`: mean of the non-`nan` entries, `nan` when
there are none. -/
def seriesMean (xs : List PNum) : PNum :=
  let vs := nonNanVals xs
  if vs.isEmpty then .nan
  else (vs.foldl PNum.add (.fin 0)).div (.fin (vs.length : ℚ))

/-- pandas `Series.std()` (sample standard deviation, `ddof = 1`):
`nan` when fewer than two observations or any infinite entry; the
float square root is abstracted by `Rat.sqrt` (the normalized cells
are never compared by the code). -/
def seriesStd (xs : List PNum) : PNum :=
  let vs := finiteVals xs
  if (nonNanVals xs).length ≠ vs.length then .nan
  else if vs.length ≤ 1 then .nan
  else
    let m : ℚ := (vs.foldl (· + ·) 0) / (vs.length : ℚ)
    .fin (Rat.sqrt ((vs.foldl (fun a q => a + (q - m) * (q - m)) 0) / ((vs.length : ℚ) - 1)))

/-- pandas `Series.min()`: least non-`nan` entry, `nan` when empty. -/
def seriesMin (xs : List PNum) : PNum :=
  match nonNanVals xs with
  | [] => .nan
  | v :: rest => rest.foldl (fun a b => if PNum.le b a then b else a) v

/-- pandas `Series.max()`: greatest non-`nan` entry, `nan` when empty. -/
def seriesMax (xs : List PNum) : PNum :=
  match nonNanVals xs with
  | [] => .nan
  | v :: rest => rest.foldl (fun a b => if PNum.le a b then b else a) v

/-- `DataPreprocessor.normalize_indicators`: adds an
`{indicator}_norm` column per indicator for the recognized methods;
any other `method` string matches neither branch, so the loop body
does nothing and the stored frame's copy is returned unchanged. -/
def DataPreprocessor.normalize_indicators (self : DataPreprocessor)
    (indicators : List String) (method : String := "zscore") : DF :=
  indicators.foldl (fun df indicator =>
    if method = "zscore" then
      let vals := (df.col indicator).map Cell.toPNum
      let mean := seriesMean vals
      let std := seriesStd vals
      df.setCol (indicator ++ "_norm") (vals.map (fun x => Cell.num ((x.sub mean).div std)))
    else if method = "minmax" then
      let vals := (df.col indicator).map Cell.toPNum
      let minVal := seriesMin vals
      let maxVal := seriesMax vals
      df.setCol (indicator ++ "_norm")
        (vals.map (fun x => Cell.num ((x.sub minVal).div (maxVal.sub minVal))))
    else df)
    self.data

/-- `DataPreprocessor.prepare_for_modeling`: the verbatim sequencing
of the source. Each feature method internally restarts from a copy of
`self.data`, and every `df = ...` reassignment below discards the
previous value of `df`, so only the unconditional rate-of-change step
reaches `dropna`. -/
def DataPreprocessor.prepare_for_modeling (self : DataPreprocessor)
    (target_indicator : String) (include_lags : Bool := true)
    (include_ma : Bool := true) (include_temporal : Bool := true) : DF :=
  let df := self.data
  let df := if include_temporal then self.create_temporal_features else df
  let df := if include_lags then self.add_lag_features [target_indicator] [1, 2, 4] else df
  let df := if include_ma then self.add_moving_averages [target_indicator] [2, 4] else df
  let df := self.add_rate_of_change [target_indicator]
  DF.dropna df

example : pctChange [.fin 1, .fin 2] 1 = [.nan, .fin 1] := by with_unfolding_all rfl
example : pctChange [.fin 0, .fin 5] 1 = [.nan, .pinf] := by with_unfolding_all rfl
example : pctChange [.fin 1, .fin 0, .fin 0] 1 = [.nan, .fin (-1), .nan] := by with_unfolding_all rfl
example : rollingMean [.fin 1, .fin 3] 2 = [.nan, .fin 2] := by with_unfolding_all rfl
example : shiftCells [Cell.num (.fin 7), Cell.num (.fin 9)] 1
    = [Cell.num .nan, Cell.num (.fin 7)] := by decide

/-! ## `DataLoader` (`data_loader.py`) -/

/-- The exceptions `load_csv` can raise: the explicit missing-columns
`ValueError`, the `ValueError` propagated from `quarter_to_date` (or
from applying it to a non-string cell), and the `IndexError` of
`iloc[0]` on a zero-row frame while building the metadata. -/
inductive LoadError where
  | missingColumns (missing : List String)
  | formatError (raw : String)
  | nonStringQuarter (c : Cell)
  | emptyData
deriving DecidableEq, Repr

/-- Decidable equality for `Except` results, used to evaluate loader
outcomes on concrete inputs. -/
instance {e a : Type} [DecidableEq e] [DecidableEq a] : DecidableEq (Except e a) := fun x y =>
  match x, y with
  | .ok u, .ok v =>
    if h : u = v then .isTrue (h ▸ rfl) else .isFalse (fun he => h (Except.ok.inj he))
  | .error u, .error v =>
    if h : u = v then .isTrue (h ▸ rfl) else .isFalse (fun he => h (Except.error.inj he))
  | .ok _, .error _ => .isFalse (fun he => Except.noConfusion he)
  | .error _, .ok _ => .isFalse (fun he => Except.noConfusion he)

/-- The `metadata` dictionary recorded by a successful `load_csv`. -/
structure LoaderMetadata where
  file_path : String
  n_records : Nat
  start_date : Cell
  end_date : Cell
  columns : List String
deriving DecidableEq, Repr

/-- The loader: `__init__` sets `data = None` and an empty metadata
dictionary (modelled `none`). -/
structure DataLoader where
  data : Option DF
  metadata : Option LoaderMetadata
deriving DecidableEq, Repr

/-- A fresh loader, as built by `DataLoader()`. -/
def DataLoader.init : DataLoader := { data := none, metadata := none }

/-- `df['Quarter'].apply(quarter_to_date)`: parse every quarter cell,
propagating the first failure. -/
def computeDates : List Cell → Except LoadError (List QDate)
  | [] => .ok []
  | Cell.str s :: rest =>
    match quarter_to_date s with
    | none => .error (.formatError s)
    | some d => (computeDates rest).map (fun ds => d :: ds)
  | c :: _ => .error (.nonStringQuarter c)

/-- Chronological order on loader dates. -/
def qdateLe (a b : QDate) : Bool :=
  a.year < b.year || (a.year = b.year && a.month ≤ b.month)

/-- The `Date` cell of a row (rows without a date cell order as year
0, which never occurs in loader output). -/
def DF.rowDate (df : DF) (r : List Cell) : QDate :=
  match df.colIdx "Date" with
  | some i =>
    match r.getD i (Cell.num .nan) with
    | .date d => d
    | _ => ⟨0, 0⟩
  | none => ⟨0, 0⟩

/-- Insert into a sorted list, after any equal keys (stable). -/
def insertRow (le : List Cell → List Cell → Bool) (x : List Cell) :
    List (List Cell) → List (List Cell)
  | [] => [x]
  | y :: ys => if le y x then y :: insertRow le x ys else x :: y :: ys

/-- Stable insertion sort. -/
def insertionSortRows (le : List Cell → List Cell → Bool) : List (List Cell) → List (List Cell)
  | [] => []
  | x :: xs => insertRow le x (insertionSortRows le xs)

/-- `df.sort_values('Date').reset_index(drop=True)`, embedded as a
stable sort on the `Date` key. pandas' default `kind='quicksort'`
guarantees the resulting order of the keys but not the relative order
of tied rows; the embedding fixes a stable order, and no theorem below
relies on the tie order. -/
def DF.sortValuesDate (df : DF) : DF :=
  { df with rows :=
      insertionSortRows (fun r1 r2 => qdateLe (df.rowDate r1) (df.rowDate r2)) df.rows }

/-- `DataLoader.load_csv` with the already-read table `input` standing
for the parsed CSV file: column check, date derivation, sort, then —
only after every failure point — the assignment of `self.metadata` and
`self.data`. The surrounding `try/except` logs and re-raises, leaving
the error unchanged. -/
def DataLoader.load_csv (self : DataLoader) (file_path : String) (input : DF) :
    DataLoader × Except LoadError DF :=
  let missing := Config.REQUIRED_COLUMNS.filter (fun c => decide (c ∉ input.cols))
  if missing.isEmpty then
    match computeDates (input.col "Quarter") with
    | .error e => (self, .error e)
    | .ok dates =>
      let df := input.setCol "Date" (dates.map Cell.date)
      let sorted := df.sortValuesDate
      match (sorted.col "Quarter").head?, (sorted.col "Quarter").getLast? with
      | some sd, some ed =>
        ({ data := some sorted,
           metadata := some { file_path := file_path, n_records := sorted.rows.length,
                              start_date := sd, end_date := ed, columns := sorted.cols } },
         .ok sorted)
      | _, _ => (self, .error .emptyData)
  else (self, .error (.missingColumns missing))

/-! ## `DataValidator` (`data_validator.py`) -/

/-- Result of `check_missing_values`. -/
structure MissingResult where
  has_missing : Bool
  counts : List (String × Nat)
  total_missing : Nat
deriving DecidableEq, Repr

/-- Per-indicator entry of `check_data_ranges`. -/
structure RangeEntry where
  valid : Bool
  min : PNum
  max : PNum
deriving DecidableEq, Repr

/-- Result of `check_data_ranges`. -/
structure RangeResult where
  all_valid : Bool
  indicators : List (String × RangeEntry)
deriving DecidableEq, Repr

/-- Result of `check_temporal_continuity`. -/
structure ContinuityResult where
  is_continuous : Bool
  expected_quarters : Int
  actual_quarters : Nat
  gaps_found : Nat
  gap_locations : List Cell
deriving DecidableEq, Repr

/-- Per-indicator entry of `detect_outliers`. -/
structure OutlierEntry where
  count : Nat
  percentage : ℚ
  quarters : List Cell
  values : List PNum
deriving DecidableEq, Repr

/-- Result of `check_consistency`. -/
structure ConsistencyResult where
  er_ur_consistent : Bool
  inconsistent_count : Nat
  inconsistent_quarters : List Cell
deriving DecidableEq, Repr

/-- The dictionary returned by `validate_all`. -/
structure ValidationResults where
  missing_values : MissingResult
  data_ranges : RangeResult
  temporal_continuity : ContinuityResult
  outliers : List (String × OutlierEntry)
  consistency : ConsistencyResult
  overall_valid : Bool
deriving DecidableEq, Repr

/-- The validator, constructed from one frame snapshot. The
`validation_results` cache only feeds `get_validation_report`, which
no claim mentions, so it is not modelled. -/
structure DataValidator where
  data : DF
deriving DecidableEq, Repr

/-- `Series.between(lo, hi)` (inclusive): false on `nan`. -/
def PNum.between (x : PNum) (lo hi : ℚ) : Bool :=
  PNum.le (.fin lo) x && PNum.le x (.fin hi)

/-- `helpers.validate_data_range`: every value within `[min_val, max_val]`. -/
def validate_data_range (data : List PNum) (min_val : ℚ := 0) (max_val : ℚ := 100) : Bool :=
  data.all (fun x => x.between min_val max_val)

/-- Ascending insertion sort on rationals, for `Series.quantile`. -/
def insertQ (x : ℚ) : List ℚ → List ℚ
  | [] => [x]
  | y :: ys => if y ≤ x then y :: insertQ x ys else x :: y :: ys

/-- Ascending sort on rationals. -/
def sortQ : List ℚ → List ℚ
  | [] => []
  | x :: xs => insertQ x (sortQ xs)

/-- pandas `Series.quantile(p)` with the default linear interpolation,
skipping `nan`; `nan` on an empty series. Infinite entries are not
modelled (`nan` is returned instead): the validator applies this to
the raw indicator columns, which hold finite loaded values. -/
def seriesQuantile (xs : List PNum) (p : ℚ) : PNum :=
  if (nonNanVals xs).length ≠ (finiteVals xs).length then .nan
  else
    let vs := sortQ (finiteVals xs)
    let n := vs.length
    if n = 0 then .nan
    else
      let h : ℚ := ((n : ℚ) - 1) * p
      let l : Nat := h.floor.toNat
      let lo := vs.getD l 0
      let hi := vs.getD (Nat.min (l + 1) (n - 1)) 0
      .fin (lo + (h - (l : ℚ)) * (hi - lo))

/-- `helpers.detect_outliers_iqr`: flag values strictly outside
`[Q1 - factor·IQR, Q3 + factor·IQR]`; comparisons with `nan` are
false, so missing values are never flagged. -/
def detect_outliers_iqr (data : List PNum) (factor : ℚ := 3 / 2) : List Bool :=
  let q1 := seriesQuantile data (1 / 4)
  let q3 := seriesQuantile data (3 / 4)
  let iqr := q3.sub q1
  let lower_bound := q1.sub ((PNum.fin factor).mul iqr)
  let upper_bound := q3.add ((PNum.fin factor).mul iqr)
  data.map (fun x => PNum.lt x lower_bound || PNum.lt upper_bound x)

/-- `DataValidator.check_missing_values`: null counts over the
required columns (`isnull` is true exactly on the float `nan`). -/
def DataValidator.check_missing_values (self : DataValidator) : MissingResult :=
  let counts := Config.REQUIRED_COLUMNS.map (fun c =>
    (c, ((self.data.col c).filter (fun cell => decide (cell = Cell.num .nan))).length))
  let total := (counts.map Prod.snd).sum
  { has_missing := decide (0 < total), counts := counts, total_missing := total }

/-- `DataValidator.check_data_ranges`: each indicator valid when all
its values lie in `[0, 100]`; `all_valid` is the conjunction. -/
def DataValidator.check_data_ranges (self : DataValidator) : RangeResult :=
  let entries := (Config.REQUIRED_COLUMNS.drop 1).map (fun indicator =>
    let vals := (self.data.col indicator).map Cell.toPNum
    (indicator, { valid := validate_data_range vals 0 100,
                  min := seriesMin vals, max := seriesMax vals : RangeEntry }))
  { all_valid := entries.all (fun e => e.2.valid), indicators := entries }

/-- `DataValidator.check_temporal_continuity`: expected quarter count
from the day span, successive day differences, and a gap wherever a
difference exceeds `1.5 × 90` days. Evaluated on frames with at least
one date row (on a zero-row frame the source raises while converting
`expected_quarters`). -/
def DataValidator.check_temporal_continuity (self : DataValidator) : ContinuityResult :=
  let dayNums := (self.data.col "Date").filterMap (fun c => match c with
    | .date d => some d.dayNumber
    | _ => none)
  let dmax := dayNums.foldl max (dayNums.headD 0)
  let dmin := dayNums.foldl min (dayNums.headD 0)
  let diffs := List.zipWith (fun a b => b - a) dayNums (dayNums.drop 1)
  let quarters := self.data.col "Quarter"
  let gapLocs := (List.range diffs.length).filterMap (fun i =>
    if 135 < diffs.getD i 0 then some (quarters.getD (i + 1) (Cell.num .nan)) else none)
  let gaps_found := (diffs.filter (fun d => decide (135 < d))).length
  { is_continuous := decide (gaps_found = 0),
    expected_quarters := (dmax - dmin) / 90 + 1,
    actual_quarters := (self.data.col "Date").length,
    gaps_found := gaps_found,
    gap_locations := gapLocs }

/-- `DataValidator.detect_outliers`: IQR outliers per indicator with
count, percentage of rows, and the flagged quarters and values. -/
def DataValidator.detect_outliers (self : DataValidator) : List (String × OutlierEntry) :=
  (Config.REQUIRED_COLUMNS.drop 1).map (fun indicator =>
    let vals := (self.data.col indicator).map Cell.toPNum
    let flags := detect_outliers_iqr vals
    let idxs := (List.range flags.length).filter (fun i => flags.getD i false)
    (indicator,
      { count := idxs.length,
        percentage := (idxs.length : ℚ) / (self.data.rows.length : ℚ) * 100,
        quarters := idxs.map (fun i => (self.data.col "Quarter").getD i (Cell.num .nan)),
        values := idxs.map (fun i => vals.getD i .nan) }))

/-- `DataValidator.check_consistency`: `|ER + UR - 100| > 2.0` flags a
row inconsistent; comparisons with `nan` are false. -/
def DataValidator.check_consistency (self : DataValidator) : ConsistencyResult :=
  let er := (self.data.col "ER").map Cell.toPNum
  let ur := (self.data.col "UR").map Cell.toPNum
  let flags := (List.zipWith PNum.add er ur).map
    (fun s => PNum.lt (.fin 2) ((s.sub (.fin 100)).abs))
  let idxs := (List.range flags.length).filter (fun i => flags.getD i false)
  { er_ur_consistent := flags.all (fun b => !b),
    inconsistent_count := idxs.length,
    inconsistent_quarters := idxs.map (fun i => (self.data.col "Quarter").getD i (Cell.num .nan)) }

/-- `DataValidator.validate_all`: run the five checks, then overwrite
the initial `overall_valid = True` with the conjunction of the missing
/ range / continuity verdicts. -/
def DataValidator.validate_all (self : DataValidator) : ValidationResults :=
  let results : ValidationResults :=
    { missing_values := self.check_missing_values,
      data_ranges := self.check_data_ranges,
      temporal_continuity := self.check_temporal_continuity,
      outliers := self.detect_outliers,
      consistency := self.check_consistency,
      overall_valid := true }
  { results with overall_valid :=
      !results.missing_values.has_missing &&
      results.data_ranges.all_valid &&
      results.temporal_continuity.is_continuous }

/-! ## Concrete frames used as inputs for witnesses and counterexamples -/

/-- A row of a loaded frame, in the loader's column order
`[Quarter, LFPR, ER, UR, UER, Date]`. -/
def mkRow (q : String) (y m : Int) (a b c d : ℚ) : List Cell :=
  [Cell.str q, Cell.num (.fin a), Cell.num (.fin b), Cell.num (.fin c),
   Cell.num (.fin d), Cell.date ⟨y, m⟩]

/-- Six consecutive quarters of complete, in-range data. -/
def sampleDF : DF :=
  { cols := ["Quarter", "LFPR", "ER", "UR", "UER", "Date"],
    rows := [
      mkRow "2014 Q1" 2014 1 61 93 7 18,
      mkRow "2014 Q2" 2014 4 62 94 6 17,
      mkRow "2014 Q3" 2014 7 63 93 7 18,
      mkRow "2014 Q4" 2014 10 64 94 6 16,
      mkRow "2015 Q1" 2015 1 65 93 7 17,
      mkRow "2015 Q2" 2015 4 66 94 6 18] }

/-- A preprocessor over `sampleDF`. -/
def samplePP : DataPreprocessor := { data := sampleDF }

/-- A validator over `sampleDF`. -/
def sampleValidator : DataValidator := { data := sampleDF }

/-- A complete six-row loaded frame whose `LFPR` column ends in two
zeros, so that `LFPR.pct_change(1)` hits `0/0` at the last row. -/
def zeroTailDF : DF :=
  { cols := ["Quarter", "LFPR", "ER", "UR", "UER", "Date"],
    rows := [
      mkRow "2014 Q1" 2014 1 1 93 7 18,
      mkRow "2014 Q2" 2014 4 2 94 6 17,
      mkRow "2014 Q3" 2014 7 3 93 7 18,
      mkRow "2014 Q4" 2014 10 4 94 6 16,
      mkRow "2015 Q1" 2015 1 0 93 7 17,
      mkRow "2015 Q2" 2015 4 0 94 6 18] }

/-- A single-indicator frame holding `[0, 5]`: the rate of change at
the second row divides by zero. -/
def zeroStartDF : DF :=
  { cols := ["LFPR"], rows := [[Cell.num (.fin 0)], [Cell.num (.fin 5)]] }

/-- An input table with the `LFPR` column absent. -/
def missingColDF : DF :=
  { cols := ["Quarter", "ER", "UR", "UER"],
    rows := [[Cell.str "2014 Q1", Cell.num (.fin 93), Cell.num (.fin 7), Cell.num (.fin 18)]] }

/-! ## Small evaluation lemmas -/

/-- `int("")` fails. -/
theorem pyInt_empty : pyInt "" = none := rfl

/-! ## Claim theorems -/

/-- C10: for every stored frame and target indicator,
`prepare_for_modeling` returns the same table for all eight
combinations of `include_lags` / `include_ma` / `include_temporal`:
each feature step restarts from the stored copy and the unconditional
rate-of-change step overwrites `df` last, so the flags have no
influence on the output. -/
theorem c10_prepare_for_modeling_ignores_flags (pp : DataPreprocessor)
    (target : String) (l1 m1 t1 l2 m2 t2 : Bool) :
    pp.prepare_for_modeling target l1 m1 t1 = pp.prepare_for_modeling target l2 m2 t2 := rfl

/-- C1 (code bug, at the failing input `sampleDF` with target `LFPR`
and all three include flags set): the table returned by
`prepare_for_modeling` contains none of the temporal, lag or
moving-average columns the flags request — only the rate-of-change
columns survive, contradicting the documented composition. -/
theorem c1_prepare_for_modeling_loses_features :
    "Year" ∉ (samplePP.prepare_for_modeling "LFPR" true true true).cols ∧
    "QuarterNum" ∉ (samplePP.prepare_for_modeling "LFPR" true true true).cols ∧
    "Quarter_sin" ∉ (samplePP.prepare_for_modeling "LFPR" true true true).cols ∧
    "LFPR_lag_1" ∉ (samplePP.prepare_for_modeling "LFPR" true true true).cols ∧
    "LFPR_lag_2" ∉ (samplePP.prepare_for_modeling "LFPR" true true true).cols ∧
    "LFPR_lag_4" ∉ (samplePP.prepare_for_modeling "LFPR" true true true).cols ∧
    "LFPR_ma2" ∉ (samplePP.prepare_for_modeling "LFPR" true true true).cols ∧
    "LFPR_ma4" ∉ (samplePP.prepare_for_modeling "LFPR" true true true).cols ∧
    "LFPR_change1" ∈ (samplePP.prepare_for_modeling "LFPR" true true true).cols ∧
    "LFPR_change4" ∈ (samplePP.prepare_for_modeling "LFPR" true true true).cols := by
  decide

/-- C3: `validate_all` runs all five checks, and `overall_valid` is
true exactly when there are no missing values, all indicator ranges
are valid, and the series is temporally continuous; the outlier and
consistency results are reported but never feed `overall_valid`
(which is a function of the other three checks only). Scoped to
frames with at least one row, where the embedding of the continuity
check is faithful. -/
theorem c3_validate_all_overall_valid (v : DataValidator) (h : v.data.rows ≠ []) :
    v.validate_all.overall_valid =
      (!v.check_missing_values.has_missing &&
        v.check_data_ranges.all_valid &&
        v.check_temporal_continuity.is_continuous) ∧
    v.validate_all.missing_values = v.check_missing_values ∧
    v.validate_all.data_ranges = v.check_data_ranges ∧
    v.validate_all.temporal_continuity = v.check_temporal_continuity ∧
    v.validate_all.outliers = v.detect_outliers ∧
    v.validate_all.consistency = v.check_consistency :=
  ⟨rfl, rfl, rfl, rfl, rfl, rfl⟩

/-- C3 witness: the theorem applied to the six-quarter sample frame. -/
theorem c3_validate_all_overall_valid_witness :
    sampleValidator.data.rows ≠ [] ∧
    (sampleValidator.validate_all.overall_valid =
      (!sampleValidator.check_missing_values.has_missing &&
        sampleValidator.check_data_ranges.all_valid &&
        sampleValidator.check_temporal_continuity.is_continuous) ∧
     sampleValidator.validate_all.missing_values = sampleValidator.check_missing_values ∧
     sampleValidator.validate_all.data_ranges = sampleValidator.check_data_ranges ∧
     sampleValidator.validate_all.temporal_continuity = sampleValidator.check_temporal_continuity ∧
     sampleValidator.validate_all.outliers = sampleValidator.detect_outliers ∧
     sampleValidator.validate_all.consistency = sampleValidator.check_consistency) :=
  ⟨by decide, c3_validate_all_overall_valid sampleValidator (by decide)⟩

/-- C4 counterexample: the label `"2014 Q5"` has an out-of-range
quarter digit, yet `parse_quarter` succeeds and returns `(2014, 5)`
instead of failing. -/
theorem c4_counterexample_q5_parses :
    parse_quarter "2014 Q5" = some (2014, 5) := by decide

/-- C4 (amended): `parse_quarter` fails exactly when the label has
fewer than two whitespace tokens, or the first token is not an
integer literal, or the second token with every `Q` removed is not an
integer literal. No 4-digit-year check, no quarter-range check, and
no extra-token check is applied. -/
theorem c4_parse_quarter_failure_iff (s : String) :
    parse_quarter s = none ↔
      pyInt ((pySplit (pyStrip s)).getD 0 "") = none ∨
      pyInt (removeQ ((pySplit (pyStrip s)).getD 1 "")) = none := by
  unfold parse_quarter
  cases h : pySplit (pyStrip s) with
  | nil => simp [h, pyInt_empty, removeQ]
  | cons p0 rest =>
    cases rest with
    | nil =>
      cases hy : pyInt p0 <;> simp [h, hy, pyInt_empty, removeQ]
    | cons p1 rest2 =>
      cases hy : pyInt p0 <;> cases hq : pyInt (removeQ p1) <;> simp [h, hy, hq]

/-- C9 counterexample: with the unrecognized method `"standard"`, the
normalization returns the stored table unchanged — no `_norm` column
and no error — instead of failing with a `ValueError`. -/
theorem c9_counterexample_unknown_method_silent :
    samplePP.normalize_indicators ["LFPR"] "standard" = samplePP.data ∧
    "LFPR_norm" ∉ (samplePP.normalize_indicators ["LFPR"] "standard").cols := by
  constructor
  · decide
  · decide

/-- C9 (amended): for every method string other than `"zscore"` and
`"minmax"`, `normalize_indicators` matches neither branch of its
`if`/`elif` and returns the copy of the stored table unchanged,
raising no error. -/
theorem c9_unknown_method_returns_data (pp : DataPreprocessor)
    (indicators : List String) (method : String)
    (h1 : method ≠ "zscore") (h2 : method ≠ "minmax") :
    pp.normalize_indicators indicators method = pp.data := by
  unfold DataPreprocessor.normalize_indicators
  generalize pp.data = d
  induction indicators generalizing d with
  | nil => rfl
  | cons a l ih =>
    rw [List.foldl_cons, if_neg h1, if_neg h2]
    exact ih d

/-- C9 witness: the amended theorem applied to the sample frame and
the unrecognized method `"robust"`. -/
theorem c9_unknown_method_returns_data_witness :
    "robust" ≠ "zscore" ∧ "robust" ≠ "minmax" ∧
    samplePP.normalize_indicators ["LFPR", "ER"] "robust" = samplePP.data :=
  ⟨by decide, by decide,
    c9_unknown_method_returns_data samplePP ["LFPR", "ER"] "robust" (by decide) (by decide)⟩

/-- C7 counterexample: for the series `[0, 5]` and period 1, the
rate-of-change feature at the second row is `+inf` — a defined
infinite value, not the undefined/missing sentinel the claim requires
when the earlier value is zero. -/
theorem c7_counterexample_inf_on_zero_previous :
    ((DataPreprocessor.mk zeroStartDF).add_rate_of_change ["LFPR"] [1]).col "LFPR_change1"
      = [Cell.num .nan, Cell.num .pinf] ∧ PNum.pinf ≠ PNum.nan := by
  constructor
  · with_unfolding_all rfl
  · decide

/-- C2 counterexample: `zeroTailDF` is a complete six-row dataset (no
missing values), yet `prepare_for_modeling` keeps only one row, not
`6 - 4 = 2`: the last row's `LFPR.pct_change(1)` is `0/0 = nan`, so a
fifth (non-leading) row is dropped. -/
theorem c2_counterexample_extra_row_dropped :
    (∀ r ∈ zeroTailDF.rows, Cell.num .nan ∉ r) ∧
    zeroTailDF.rows.length = 6 ∧
    ((DataPreprocessor.mk zeroTailDF).prepare_for_modeling "LFPR").rows.length = 1 := by
  refine ⟨by decide, by decide, ?_⟩
  with_unfolding_all rfl

/-- Every failure path of `load_csv` returns before the `self.data` /
`self.metadata` assignments, so the pre-call state survives unless the
call returns a loaded frame. -/
theorem load_csv_state_or_ok (self : DataLoader) (fp : String) (input : DF) :
    (self.load_csv fp input).1 = self ∨ ∃ df, (self.load_csv fp input).2 = .ok df := by
  unfold DataLoader.load_csv
  dsimp only
  repeat' split
  all_goals first
    | (right; exact ⟨_, rfl⟩)
    | (left; rfl)

/-- C5: whenever a required column is absent from the input table,
`load_csv` fails with the missing-columns `ValueError`, whose payload
contains exactly the required columns that are absent — no more, no
fewer — and no dataset is returned. -/
theorem c5_schema_error_exact_missing (self : DataLoader) (fp : String) (input : DF)
    (h : ∃ c ∈ Config.REQUIRED_COLUMNS, c ∉ input.cols) :
    ∃ m, (self.load_csv fp input).2 = .error (.missingColumns m) ∧
      ∀ c, (c ∈ m ↔ c ∈ Config.REQUIRED_COLUMNS ∧ c ∉ input.cols) := by
  obtain ⟨c0, hc0, hnc⟩ := h
  have hmem : c0 ∈ Config.REQUIRED_COLUMNS.filter (fun c => decide (c ∉ input.cols)) :=
    List.mem_filter.mpr ⟨hc0, by simpa using hnc⟩
  have hne : (Config.REQUIRED_COLUMNS.filter (fun c => decide (c ∉ input.cols))).isEmpty = false := by
    cases hl : Config.REQUIRED_COLUMNS.filter (fun c => decide (c ∉ input.cols)) with
    | nil => rw [hl] at hmem; cases hmem
    | cons a l => rfl
  refine ⟨Config.REQUIRED_COLUMNS.filter (fun c => decide (c ∉ input.cols)), ?_, ?_⟩
  · unfold DataLoader.load_csv
    simp only [hne, Bool.false_eq_true, if_false]
  · intro c
    simp [List.mem_filter]

/-- C5 witness: loading a table without the `LFPR` column. -/
theorem c5_schema_error_exact_missing_witness :
    (∃ c ∈ Config.REQUIRED_COLUMNS, c ∉ missingColDF.cols) ∧
    ∃ m, (DataLoader.init.load_csv "input.csv" missingColDF).2 = .error (.missingColumns m) ∧
      ∀ c, (c ∈ m ↔ c ∈ Config.REQUIRED_COLUMNS ∧ c ∉ missingColDF.cols) :=
  ⟨by decide, c5_schema_error_exact_missing DataLoader.init "input.csv" missingColDF (by decide)⟩

/-- C8: whenever `load_csv` fails — missing required columns, an
unparseable quarter label, or the empty-frame metadata failure — the
loader's stored `data` and `metadata` are exactly what they were
before the call, and the result carries the error, not a partial
dataset. -/
theorem c8_failed_load_leaves_state (self : DataLoader) (fp : String) (input : DF)
    (e : LoadError) (h : (self.load_csv fp input).2 = .error e) :
    (self.load_csv fp input).1 = self := by
  rcases load_csv_state_or_ok self fp input with h1 | ⟨df, h2⟩
  · exact h1
  · rw [h] at h2
    cases h2

/-- C8 witness: a failed load over a table with a missing column
leaves a fresh loader untouched. -/
theorem c8_failed_load_leaves_state_witness :
    (DataLoader.init.load_csv "input.csv" missingColDF).2
      = .error (.missingColumns ["LFPR"]) ∧
    (DataLoader.init.load_csv "input.csv" missingColDF).1 = DataLoader.init :=
  ⟨by decide,
    c8_failed_load_leaves_state DataLoader.init "input.csv" missingColDF
      (.missingColumns ["LFPR"]) (by decide)⟩

/-! ## Column-lookup lemmas -/

/-- `findIdx?` misses exactly the absent names. -/
theorem findIdxAux_none_of_not_mem (c : String) :
    ∀ (l : List String) (i : Nat), c ∉ l → l.findIdx? (fun x => x = c) i = none := by
  intro l
  induction l with
  | nil => intro i _; exact List.findIdx?_nil
  | cons a l ih =>
    intro i h
    rw [List.findIdx?_cons]
    have ha : ¬(a = c) := fun e => h (e ▸ List.mem_cons_self a l)
    simp only [decide_eq_true_eq, ha, if_false]
    exact ih (i + 1) (fun hm => h (List.mem_cons_of_mem a hm))

/-- `findIdx?` finds present names at an in-range offset. -/
theorem findIdxAux_some_of_mem (c : String) :
    ∀ (l : List String) (i : Nat), c ∈ l →
      ∃ j, l.findIdx? (fun x => x = c) i = some (i + j) ∧ j < l.length := by
  intro l
  induction l with
  | nil => intro i h; cases h
  | cons a l ih =>
    intro i h
    rw [List.findIdx?_cons]
    by_cases ha : a = c
    · exact ⟨0, by simp [ha], by simp⟩
    · have hm : c ∈ l := by
        cases h with
        | head => exact absurd rfl ha
        | tail _ hm => exact hm
      obtain ⟨j, hj, hjl⟩ := ih (i + 1) hm
      refine ⟨j + 1, ?_, by simpa using Nat.succ_lt_succ hjl⟩
      simp only [decide_eq_true_eq, ha, if_false]
      rw [hj]
      congr 1
      omega

/-- A successful `findIdx?` is preserved by appending on the right. -/
theorem findIdxAux_append_some (p : String → Bool) :
    ∀ (l l2 : List String) (i k : Nat), l.findIdx? p i = some k →
      (l ++ l2).findIdx? p i = some k := by
  intro l
  induction l with
  | nil => intro l2 i k h; rw [List.findIdx?_nil] at h; cases h
  | cons a l ih =>
    intro l2 i k h
    rw [List.findIdx?_cons] at h
    rw [List.cons_append, List.findIdx?_cons]
    by_cases ha : p a = true
    · rwa [if_pos ha] at h ⊢
    · rw [if_neg ha] at h ⊢
      exact ih l2 (i + 1) k h

/-- A name appended to a list that misses it is found at the end. -/
theorem findIdxAux_append_self (c : String) :
    ∀ (l : List String) (i : Nat), c ∉ l →
      (l ++ [c]).findIdx? (fun x => x = c) i = some (i + l.length) := by
  intro l
  induction l with
  | nil =>
    intro i _
    rw [List.nil_append, List.findIdx?_cons]
    simp
  | cons a l ih =>
    intro i h
    rw [List.cons_append, List.findIdx?_cons]
    have ha : ¬(a = c) := fun e => h (e ▸ List.mem_cons_self a l)
    simp only [decide_eq_true_eq, ha, if_false]
    rw [ih (i + 1) (fun hm => h (List.mem_cons_of_mem a hm))]
    congr 1
    simp only [List.length_cons]
    omega

/-- `colIdx` of an absent column. -/
theorem DF.colIdx_eq_none {df : DF} {c : String} (h : c ∉ df.cols) : df.colIdx c = none :=
  findIdxAux_none_of_not_mem c df.cols 0 h

/-- `colIdx` of a present column is an in-range position. -/
theorem DF.colIdx_of_mem {df : DF} {c : String} (h : c ∈ df.cols) :
    ∃ i, df.colIdx c = some i ∧ i < df.cols.length := by
  obtain ⟨j, hj, hjl⟩ := findIdxAux_some_of_mem c df.cols 0 h
  exact ⟨j, by simpa using hj, hjl⟩

/-- A present column projects to one cell per row. -/
theorem DF.length_col_of_mem {df : DF} {c : String} (h : c ∈ df.cols) :
    (df.col c).length = df.rows.length := by
  obtain ⟨i, hi, _⟩ := DF.colIdx_of_mem h
  unfold DF.col
  rw [hi]
  exact List.length_map _ _

/-- Setting an absent column appends it on the right. -/
theorem DF.setCol_fresh {df : DF} {nm : String} {vs : List Cell} (h : nm ∉ df.cols) :
    df.setCol nm vs =
      { cols := df.cols ++ [nm],
        rows := List.zipWith (fun r v => r ++ [v]) df.rows vs } := by
  unfold DF.setCol
  rw [DF.colIdx_eq_none h]

/-- Appending a fresh column does not change the projection of an
existing column (rows stay aligned and the new cells sit past every
old index). -/
theorem DF.col_setCol_fresh_other {df : DF} {nm target : String} {vs : List Cell}
    (hnm : nm ∉ df.cols) (htg : target ∈ df.cols)
    (hAlign : ∀ r ∈ df.rows, r.length = df.cols.length)
    (hlen : vs.length = df.rows.length) :
    (df.setCol nm vs).col target = df.col target := by
  obtain ⟨i, hi, hlt⟩ := DF.colIdx_of_mem htg
  have hi1 : df.cols.findIdx? (fun x => x = target) 0 = some i := hi
  have hi2 : (df.cols ++ [nm]).findIdx? (fun x => x = target) 0 = some i :=
    findIdxAux_append_some _ df.cols [nm] 0 i hi1
  rw [DF.setCol_fresh hnm]
  unfold DF.col DF.colIdx
  rw [hi1, hi2]
  apply List.ext_getElem
  · simp [hlen]
  · intro t h1 h2
    have ht : t < df.rows.length := by simpa using h2
    have htv : t < vs.length := by omega
    rw [List.getElem_map, List.getElem_map, List.getElem_zipWith]
    have hb : i < (df.rows[t]).length := by
      rw [hAlign _ (List.getElem_mem ht)]
      exact hlt
    rw [List.getD_eq_getElem _ _ (by simp; omega), List.getD_eq_getElem _ _ hb]
    exact List.getElem_append_left hb

/-- Projecting a freshly appended column returns exactly the assigned
cells. -/
theorem DF.col_setCol_fresh_self {df : DF} {nm : String} {vs : List Cell}
    (hnm : nm ∉ df.cols)
    (hAlign : ∀ r ∈ df.rows, r.length = df.cols.length)
    (hlen : vs.length = df.rows.length) :
    (df.setCol nm vs).col nm = vs := by
  have hfind : (df.cols ++ [nm]).findIdx? (fun x => x = nm) 0 = some (0 + df.cols.length) :=
    findIdxAux_append_self nm df.cols 0 hnm
  rw [DF.setCol_fresh hnm]
  unfold DF.col DF.colIdx
  rw [hfind]
  apply List.ext_getElem
  · simp [hlen]
  · intro t h1 h2
    have ht : t < df.rows.length := by omega
    rw [List.getElem_map, List.getElem_zipWith]
    have hb : (df.rows[t]).length = df.cols.length :=
      hAlign _ (List.getElem_mem ht)
    rw [List.getD_append_right _ _ _ _ (by omega)]
    have hz : 0 + df.cols.length - (df.rows[t]).length = 0 := by omega
    rw [hz]
    rfl

/-! ## Series lemmas -/

/-- Division by `nan` is `nan`. -/
theorem PNum.div_nan (x : PNum) : x.div .nan = .nan := by cases x <;> rfl

/-- `nan` minus anything is `nan`. -/
theorem PNum.nan_sub (y : PNum) : PNum.sub .nan y = .nan := by cases y <;> rfl

/-- `nan` times anything is `nan`. -/
theorem PNum.nan_mul (y : PNum) : PNum.mul .nan y = .nan := by cases y <;> rfl

/-- Forward fill is the identity on series without `nan`. -/
theorem ffillAux_eq_self : ∀ (xs : List PNum) (last : PNum),
    (∀ x ∈ xs, x ≠ PNum.nan) → ffillAux last xs = xs := by
  intro xs
  induction xs with
  | nil => intro last _; rfl
  | cons x xs ih =>
    intro last h
    unfold ffillAux
    rw [if_neg (h x (List.mem_cons_self x xs))]
    rw [ih x (fun y hy => h y (List.mem_cons_of_mem x hy))]

/-- Forward fill is the identity on series without `nan`. -/
theorem ffill_eq_self (xs : List PNum) (h : ∀ x ∈ xs, x ≠ PNum.nan) : ffill xs = xs :=
  ffillAux_eq_self xs .nan h

/-- `ffillAux` preserves length. -/
theorem length_ffillAux : ∀ (xs : List PNum) (last : PNum),
    (ffillAux last xs).length = xs.length := by
  intro xs
  induction xs with
  | nil => intro last; rfl
  | cons x xs ih =>
    intro last
    unfold ffillAux
    by_cases h : x = PNum.nan
    · rw [if_pos h]
      simp [ih]
    · rw [if_neg h]
      simp [ih]

/-- `ffill` preserves length. -/
theorem length_ffill (xs : List PNum) : (ffill xs).length = xs.length :=
  length_ffillAux xs .nan

/-- `shift` preserves length. -/
theorem length_shiftPNum (xs : List PNum) (p : Nat) : (shiftPNum xs p).length = xs.length := by
  simp [shiftPNum]

/-- `pct_change` preserves length. -/
theorem length_pctChange (xs : List PNum) (p : Nat) : (pctChange xs p).length = xs.length := by
  simp [pctChange, List.length_zipWith, length_shiftPNum, length_ffill]

/-- The rate-of-change column has one cell per input cell. -/
theorem length_rocColumn (cells : List Cell) (p : Nat) :
    (rocColumn cells p).length = cells.length := by
  simp [rocColumn, length_pctChange]

/-- Entry `t` of a shifted series. -/
theorem shiftPNum_getD (xs : List PNum) (p t : Nat) (ht : t < xs.length) :
    (shiftPNum xs p).getD t .nan = if t < p then .nan else xs.getD (t - p) .nan := by
  rw [List.getD_eq_getElem _ _ (by rw [length_shiftPNum]; exact ht)]
  unfold shiftPNum
  rw [List.getElem_map, List.getElem_range]

/-- Entry `t` of `pct_change(p)` over a `nan`-free series. -/
theorem pctChange_getD (xs : List PNum) (p t : Nat)
    (hnn : ∀ x ∈ xs, x ≠ PNum.nan) (ht : t < xs.length) :
    (pctChange xs p).getD t .nan =
      ((xs.getD t .nan).div (if t < p then .nan else xs.getD (t - p) .nan)).sub (.fin 1) := by
  have hzip : (pctChange xs p) =
      List.zipWith (fun a b => (a.div b).sub (.fin 1)) xs (shiftPNum xs p) := by
    unfold pctChange
    rw [ffill_eq_self xs hnn]
  rw [hzip]
  rw [List.getD_eq_getElem _ _ (by rw [List.length_zipWith, length_shiftPNum]; simpa using ht)]
  rw [List.getElem_zipWith]
  rw [← List.getD_eq_getElem xs .nan ht,
      ← List.getD_eq_getElem (shiftPNum xs p) .nan (by rw [length_shiftPNum]; exact ht)]
  rw [shiftPNum_getD xs p t ht]

/-- Entry `t` of the rate-of-change column over a finite series. -/
theorem rocColumn_getD (qs : List ℚ) (p t : Nat) (ht : t < qs.length) :
    (rocColumn (qs.map (fun q => Cell.num (.fin q))) p).getD t (Cell.num .nan) =
      Cell.num ((((PNum.fin (qs.getD t 0)).div
        (if t < p then PNum.nan else PNum.fin (qs.getD (t - p) 0))).sub
        (PNum.fin 1)).mul (PNum.fin 100)) := by
  have hmm : (qs.map (fun q => Cell.num (.fin q))).map Cell.toPNum = qs.map PNum.fin := by
    rw [List.map_map]
    rfl
  have hnn : ∀ x ∈ qs.map PNum.fin, x ≠ PNum.nan := by
    intro x hx
    obtain ⟨q, _, rfl⟩ := List.mem_map.mp hx
    exact fun h => PNum.noConfusion h
  have hlq : t < (qs.map PNum.fin).length := by simpa using ht
  unfold rocColumn
  rw [hmm]
  rw [List.getD_eq_getElem _ _ (by rw [List.length_map, length_pctChange]; simpa using ht)]
  rw [List.getElem_map]
  rw [← List.getD_eq_getElem _ PNum.nan (by rw [length_pctChange]; exact hlq)]
  rw [pctChange_getD _ p t hnn hlq]
  have h1 : (qs.map PNum.fin).getD t .nan = PNum.fin (qs.getD t 0) := by
    rw [List.getD_eq_getElem _ _ hlq, List.getElem_map,
        List.getD_eq_getElem _ _ (by simpa using hlq)]
  have h2 : (if t < p then PNum.nan else (qs.map PNum.fin).getD (t - p) .nan) =
      (if t < p then PNum.nan else PNum.fin (qs.getD (t - p) 0)) := by
    by_cases hp : t < p
    · rw [if_pos hp, if_pos hp]
    · rw [if_neg hp, if_neg hp]
      have htp : t - p < qs.length := by omega
      rw [List.getD_eq_getElem _ _ (by simpa using htp), List.getElem_map,
          List.getD_eq_getElem _ _ htp]
  rw [h1, h2]

/-- The finite/finite rate-of-change cell is `nan` exactly for `0/0`. -/
theorem rocCell_nan_iff (a b : ℚ) :
    ((((PNum.fin a).div (PNum.fin b)).sub (PNum.fin 1)).mul (PNum.fin 100) = PNum.nan)
      ↔ (b = 0 ∧ a = 0) := by
  have hdiv : (PNum.fin a).div (PNum.fin b) =
      (if b = 0 then (if a = 0 then PNum.nan else if 0 < a then PNum.pinf else PNum.ninf)
       else PNum.fin (a / b)) := rfl
  by_cases hb : b = 0
  · by_cases ha : a = 0
    · rw [hdiv, if_pos hb, if_pos ha, PNum.nan_sub, PNum.nan_mul]
      simp [hb, ha]
    · rcases lt_or_gt_of_ne (fun h => ha h.symm) with h0 | h0
      · rw [hdiv, if_pos hb, if_neg ha, if_pos h0]
        have h2 : (PNum.pinf.sub (PNum.fin 1)).mul (PNum.fin 100) = PNum.pinf := by
          show (PNum.pinf.add (PNum.fin (-1))).mul (PNum.fin 100) = PNum.pinf
          norm_num [PNum.add, PNum.mul]
        rw [h2]
        simp [hb, ha]
      · rw [hdiv, if_pos hb, if_neg ha, if_neg (not_lt.mpr (le_of_lt h0))]
        have h2 : (PNum.ninf.sub (PNum.fin 1)).mul (PNum.fin 100) = PNum.ninf := by
          show (PNum.ninf.add (PNum.fin (-1))).mul (PNum.fin 100) = PNum.ninf
          norm_num [PNum.add, PNum.mul]
        rw [h2]
        simp [hb, ha]
  · rw [hdiv, if_neg hb]
    show (PNum.fin (a / b + -1)).mul (PNum.fin 100) = PNum.nan ↔ b = 0 ∧ a = 0
    simp [PNum.mul, hb]

/-- The rate-of-change cell at row `t` is `nan` exactly when the
earlier value is unavailable (`t < p`) or the change is `0/0`. -/
theorem rocColumn_getD_nan_iff (qs : List ℚ) (p t : Nat) (ht : t < qs.length) :
    ((rocColumn (qs.map (fun q => Cell.num (.fin q))) p).getD t (Cell.num .nan) = Cell.num .nan)
      ↔ (t < p ∨ (qs.getD (t - p) 0 = 0 ∧ qs.getD t 0 = 0)) := by
  rw [rocColumn_getD qs p t ht]
  by_cases hp : t < p
  · rw [if_pos hp, PNum.div_nan, PNum.nan_sub, PNum.nan_mul]
    simp [hp]
  · rw [if_neg hp]
    simp only [Cell.num.injEq]
    rw [rocCell_nan_iff]
    simp [hp, and_comm]

/-- A filter whose predicate is false on the first `k` positions and
true afterwards is the `drop` of the first `k` elements. -/
theorem filter_eq_drop_of_boundary {α : Type} (p : α → Bool) :
    ∀ (l : List α) (k : Nat), k ≤ l.length →
      (∀ i (h : i < l.length), i < k → p l[i] = false) →
      (∀ i (h : i < l.length), k ≤ i → p l[i] = true) →
      l.filter p = l.drop k := by
  intro l
  induction l with
  | nil =>
    intro k hk _ _
    simp at hk
    simp [hk]
  | cons a l ih =>
    intro k hk hlo hhi
    cases k with
    | zero =>
      rw [List.drop_zero]
      apply List.filter_eq_self.mpr
      intro x hx
      obtain ⟨i, hi, rfl⟩ := List.mem_iff_getElem.mp hx
      exact hhi i hi (Nat.zero_le i)
    | succ k =>
      have ha : p a = false := hlo 0 (by simp) (Nat.succ_pos k)
      rw [List.filter_cons_of_neg (by simp [ha]), List.drop_succ_cons]
      apply ih k (by simpa using hk)
      · intro i hi hik
        exact hlo (i + 1) (by simpa using hi) (Nat.succ_lt_succ hik)
      · intro i hi hik
        exact hhi (i + 1) (by simpa using hi) (Nat.succ_le_succ hik)

/-- Appending distinct suffixes to one string gives distinct strings. -/
theorem string_append_right_ne (s : String) {a b : String} (h : a.data ≠ b.data) :
    s ++ a ≠ s ++ b := by
  intro he
  apply h
  have h2 : (s ++ a).data = (s ++ b).data := congrArg String.data he
  rw [String.data_append, String.data_append] at h2
  exact List.append_cancel_left h2

/-- C2 (amended): for every stored frame with aligned rows, no missing
values, a finite target column of at least 4 rows, fresh feature-column
names, and no `0/0` rate-of-change at any row from index 4 on (for the
periods 1 and 4), `prepare_for_modeling` — under any flag values, which
it ignores — drops exactly the 4 leading warm-up rows: the result is
the feature frame's rows from index 4 on, and the row count is the
input count minus 4. -/
theorem c2_amended_row_count (pp : DataPreprocessor) (target : String) (qs : List ℚ)
    (lags ma temporal : Bool)
    (hAlign : ∀ r ∈ pp.data.rows, r.length = pp.data.cols.length)
    (htg : target ∈ pp.data.cols)
    (hf1 : target ++ "_change1" ∉ pp.data.cols)
    (hf4 : target ++ "_change4" ∉ pp.data.cols)
    (hq : pp.data.col target = qs.map (fun q => Cell.num (.fin q)))
    (hNoNan : ∀ r ∈ pp.data.rows, Cell.num .nan ∉ r)
    (hn : 4 ≤ qs.length)
    (hz1 : ∀ t ∈ List.range qs.length, 4 ≤ t → ¬(qs.getD (t - 1) 0 = 0 ∧ qs.getD t 0 = 0))
    (hz4 : ∀ t ∈ List.range qs.length, 4 ≤ t → ¬(qs.getD (t - 4) 0 = 0 ∧ qs.getD t 0 = 0)) :
    (pp.prepare_for_modeling target lags ma temporal).rows =
      (pp.add_rate_of_change [target]).rows.drop 4 ∧
    (pp.prepare_for_modeling target lags ma temporal).rows.length =
      pp.data.rows.length - 4 := by
  have hname1 : target ++ "_change" ++ toString 1 = target ++ "_change1" := by
    rw [String.append_assoc]; rfl
  have hname4 : target ++ "_change" ++ toString 4 = target ++ "_change4" := by
    rw [String.append_assoc]; rfl
  have hcl : (pp.data.col target).length = pp.data.rows.length := DF.length_col_of_mem htg
  have hql : qs.length = pp.data.rows.length := by
    rw [← hcl, hq, List.length_map]
  have hlen1 : (rocColumn (pp.data.col target) 1).length = pp.data.rows.length := by
    rw [length_rocColumn, hcl]
  have hlen4 : (rocColumn (pp.data.col target) 4).length = pp.data.rows.length := by
    rw [length_rocColumn, hcl]
  have hAcol : (pp.data.setCol (target ++ "_change1")
      (rocColumn (pp.data.col target) 1)).col target = pp.data.col target :=
    DF.col_setCol_fresh_other hf1 htg hAlign hlen1
  have hroc : pp.add_rate_of_change [target] =
      (pp.data.setCol (target ++ "_change1") (rocColumn (pp.data.col target) 1)).setCol
        (target ++ "_change4") (rocColumn (pp.data.col target) 4) := by
    show (pp.data.setCol (target ++ "_change" ++ toString 1)
        (rocColumn (pp.data.col target) 1)).setCol (target ++ "_change" ++ toString 4)
        (rocColumn ((pp.data.setCol (target ++ "_change" ++ toString 1)
          (rocColumn (pp.data.col target) 1)).col target) 4) = _
    rw [hname1, hname4, hAcol]
  have hA : pp.data.setCol (target ++ "_change1") (rocColumn (pp.data.col target) 1) =
      { cols := pp.data.cols ++ [target ++ "_change1"],
        rows := List.zipWith (fun r v => r ++ [v]) pp.data.rows
          (rocColumn (pp.data.col target) 1) } := DF.setCol_fresh hf1
  have hne41 : target ++ "_change4" ≠ target ++ "_change1" :=
    string_append_right_ne target (by decide)
  have hf4A : target ++ "_change4" ∉
      (pp.data.setCol (target ++ "_change1") (rocColumn (pp.data.col target) 1)).cols := by
    rw [hA]
    simp only [List.mem_append, List.mem_singleton]
    rintro (h | h)
    · exact hf4 h
    · exact hne41 h
  have hB : pp.add_rate_of_change [target] =
      { cols := (pp.data.cols ++ [target ++ "_change1"]) ++ [target ++ "_change4"],
        rows := List.zipWith (fun r v => r ++ [v])
          (List.zipWith (fun r v => r ++ [v]) pp.data.rows
            (rocColumn (pp.data.col target) 1))
          (rocColumn (pp.data.col target) 4) } := by
    rw [hroc, DF.setCol_fresh hf4A, hA]
  have hArlen : (List.zipWith (fun (r : List Cell) (v : Cell) => r ++ [v]) pp.data.rows
      (rocColumn (pp.data.col target) 1)).length = pp.data.rows.length := by
    rw [List.length_zipWith, hlen1, Nat.min_self]
  have hBrlen : (pp.add_rate_of_change [target]).rows.length = pp.data.rows.length := by
    rw [hB]
    simp only [List.length_zipWith, hArlen, hlen4, Nat.min_self]
  have hprep : pp.prepare_for_modeling target lags ma temporal =
      DF.dropna (pp.add_rate_of_change [target]) := rfl
  -- the nan status of the appended cells, rowwise
  have hc1 : ∀ i, i < qs.length →
      ((rocColumn (pp.data.col target) 1).getD i (Cell.num .nan) = Cell.num .nan
        ↔ (i < 1 ∨ (qs.getD (i - 1) 0 = 0 ∧ qs.getD i 0 = 0))) := by
    intro i hi
    rw [hq]
    exact rocColumn_getD_nan_iff qs 1 i hi
  have hc4 : ∀ i, i < qs.length →
      ((rocColumn (pp.data.col target) 4).getD i (Cell.num .nan) = Cell.num .nan
        ↔ (i < 4 ∨ (qs.getD (i - 4) 0 = 0 ∧ qs.getD i 0 = 0))) := by
    intro i hi
    rw [hq]
    exact rocColumn_getD_nan_iff qs 4 i hi
  -- membership of nan in row i of the feature frame
  have hrowmem : ∀ i, i < pp.data.rows.length →
      (Cell.num .nan ∈ (pp.add_rate_of_change [target]).rows.getD i []
        ↔ (Cell.num .nan ∈ pp.data.rows.getD i [] ∨
           (rocColumn (pp.data.col target) 1).getD i (Cell.num .nan) = Cell.num .nan ∨
           (rocColumn (pp.data.col target) 4).getD i (Cell.num .nan) = Cell.num .nan)) := by
    intro i hi'
    have hb1 : i < (rocColumn (pp.data.col target) 1).length := by rw [hlen1]; exact hi'
    have hb4 : i < (rocColumn (pp.data.col target) 4).length := by rw [hlen4]; exact hi'
    have hbz : i < (List.zipWith (fun (r : List Cell) (v : Cell) => r ++ [v])
        (List.zipWith (fun (r : List Cell) (v : Cell) => r ++ [v]) pp.data.rows
          (rocColumn (pp.data.col target) 1))
        (rocColumn (pp.data.col target) 4)).length := by
      simp only [List.length_zipWith, hArlen, hlen4, Nat.min_self]
      exact hi'
    have hrow : (pp.add_rate_of_change [target]).rows.getD i [] =
        (pp.data.rows.getD i [] ++
          [(rocColumn (pp.data.col target) 1).getD i (Cell.num .nan)]) ++
          [(rocColumn (pp.data.col target) 4).getD i (Cell.num .nan)] := by
      rw [hB]
      show (List.zipWith _ (List.zipWith _ pp.data.rows _) _).getD i [] = _
      rw [List.getD_eq_getElem _ _ hbz, List.getElem_zipWith, List.getElem_zipWith]
      rw [List.getD_eq_getElem pp.data.rows [] hi',
          List.getD_eq_getElem _ (Cell.num .nan) hb1,
          List.getD_eq_getElem _ (Cell.num .nan) hb4]
    rw [hrow]
    simp [List.mem_append, eq_comm]
  -- the filter keeps exactly the rows from index 4 on
  have key : (pp.add_rate_of_change [target]).rows.filter
      (fun r => decide (Cell.num .nan ∉ r)) = (pp.add_rate_of_change [target]).rows.drop 4 := by
    apply filter_eq_drop_of_boundary
    · rw [hBrlen, ← hql]
      exact hn
    · intro i hi hik
      have hi' : i < pp.data.rows.length := by rw [← hBrlen]; exact hi
      have hiq : i < qs.length := by rw [hql]; exact hi'
      rw [show ((pp.add_rate_of_change [target]).rows[i]) =
          (pp.add_rate_of_change [target]).rows.getD i [] from
        (List.getD_eq_getElem _ _ hi).symm]
      rw [decide_eq_false_iff_not, not_not, hrowmem i hi']
      right; right
      rw [hc4 i hiq]
      left
      exact hik
    · intro i hi hik
      have hi' : i < pp.data.rows.length := by rw [← hBrlen]; exact hi
      have hiq : i < qs.length := by rw [hql]; exact hi'
      rw [show ((pp.add_rate_of_change [target]).rows[i]) =
          (pp.add_rate_of_change [target]).rows.getD i [] from
        (List.getD_eq_getElem _ _ hi).symm]
      rw [decide_eq_true_eq, hrowmem i hi']
      rintro (h | h | h)
      · exact hNoNan _ (by rw [List.getD_eq_getElem _ _ hi']; exact List.getElem_mem hi') h
      · rw [hc1 i hiq] at h
        rcases h with h | h
        · omega
        · exact hz1 i (List.mem_range.mpr hiq) hik h
      · rw [hc4 i hiq] at h
        rcases h with h | h
        · omega
        · exact hz4 i (List.mem_range.mpr hiq) hik h
  constructor
  · rw [hprep]
    show (pp.add_rate_of_change [target]).rows.filter _ = _
    exact key
  · rw [hprep]
    show ((pp.add_rate_of_change [target]).rows.filter _).length = _
    rw [key, List.length_drop, hBrlen]

/-- C2 witness: the amended theorem applied to the six-quarter sample
frame with target `LFPR` and values `[61, 62, 63, 64, 65, 66]`. -/
theorem c2_amended_row_count_witness :
    (samplePP.prepare_for_modeling "LFPR" true true true).rows =
        (samplePP.add_rate_of_change ["LFPR"]).rows.drop 4 ∧
    (samplePP.prepare_for_modeling "LFPR" true true true).rows.length =
        samplePP.data.rows.length - 4 :=
  c2_amended_row_count samplePP "LFPR" [61, 62, 63, 64, 65, 66] true true true
    (by decide) (by decide) (by decide) (by decide) (by decide) (by decide)
    (by decide) (by decide) (by decide)

/-- C7 (amended): the rate-of-change feature for period `p` at row
`t` over a finite target column equals
`((value[t] - value[t-p]) / value[t-p]) * 100`; it is the missing
sentinel `nan` where the earlier value is unavailable (`t < p`) and
where both values are zero, and a signed infinity — a defined value,
not an error and not a missing value — where only the earlier value
is zero. -/
theorem c7_amended_rate_of_change_cases (pp : DataPreprocessor) (target : String)
    (p : Nat) (qs : List ℚ) (t : Nat)
    (hAlign : ∀ r ∈ pp.data.rows, r.length = pp.data.cols.length)
    (htg : target ∈ pp.data.cols)
    (hfresh : target ++ "_change" ++ toString p ∉ pp.data.cols)
    (hq : pp.data.col target = qs.map (fun q => Cell.num (.fin q)))
    (ht : t < qs.length) :
    ((pp.add_rate_of_change [target] [p]).col (target ++ "_change" ++ toString p)).getD t
        (Cell.num .nan) =
      (if t < p then Cell.num .nan
       else if qs.getD (t - p) 0 = 0 then
         (if qs.getD t 0 = 0 then Cell.num .nan
          else if 0 < qs.getD t 0 then Cell.num .pinf else Cell.num .ninf)
       else Cell.num (.fin (((qs.getD t 0 - qs.getD (t - p) 0) / qs.getD (t - p) 0) * 100))) := by
  have hcl : (pp.data.col target).length = pp.data.rows.length := DF.length_col_of_mem htg
  have hlenp : (rocColumn (pp.data.col target) p).length = pp.data.rows.length := by
    rw [length_rocColumn, hcl]
  have hone : pp.add_rate_of_change [target] [p] =
      pp.data.setCol (target ++ "_change" ++ toString p)
        (rocColumn (pp.data.col target) p) := rfl
  rw [hone, DF.col_setCol_fresh_self hfresh hAlign hlenp, hq, rocColumn_getD qs p t ht]
  by_cases hp : t < p
  · rw [if_pos hp, if_pos hp, PNum.div_nan, PNum.nan_sub, PNum.nan_mul]
  · rw [if_neg hp, if_neg hp]
    have hdiv : (PNum.fin (qs.getD t 0)).div (PNum.fin (qs.getD (t - p) 0)) =
        (if qs.getD (t - p) 0 = 0 then
          (if qs.getD t 0 = 0 then PNum.nan
           else if 0 < qs.getD t 0 then PNum.pinf else PNum.ninf)
         else PNum.fin (qs.getD t 0 / qs.getD (t - p) 0)) := rfl
    by_cases hprev : qs.getD (t - p) 0 = 0
    · rw [if_pos hprev]
      by_cases hcur : qs.getD t 0 = 0
      · rw [if_pos hcur, hdiv, if_pos hprev, if_pos hcur, PNum.nan_sub, PNum.nan_mul]
      · rw [if_neg hcur, hdiv, if_pos hprev, if_neg hcur]
        by_cases hpos : 0 < qs.getD t 0
        · rw [if_pos hpos, if_pos hpos]
          show Cell.num ((PNum.pinf.add (PNum.fin (-1))).mul (PNum.fin 100)) = _
          norm_num [PNum.add, PNum.mul]
        · rw [if_neg hpos, if_neg hpos]
          show Cell.num ((PNum.ninf.add (PNum.fin (-1))).mul (PNum.fin 100)) = _
          norm_num [PNum.add, PNum.mul]
    · rw [if_neg hprev, hdiv, if_neg hprev]
      show Cell.num (PNum.fin ((qs.getD t 0 / qs.getD (t - p) 0 + -1) * 100)) = _
      have harith : ∀ (a b : ℚ), b ≠ 0 → (a / b + -1) * 100 = ((a - b) / b) * 100 := by
        intro a b hb
        field_simp
        ring
      rw [harith _ _ hprev]

/-- C7 witness: the amended theorem applied to the series `[0, 5]`
with period 1 at row 1, where the feature is `+inf`. -/
theorem c7_amended_rate_of_change_cases_witness :
    (((DataPreprocessor.mk zeroStartDF).add_rate_of_change ["LFPR"] [1]).col
        ("LFPR" ++ "_change" ++ toString 1)).getD 1 (Cell.num .nan) =
      (if 1 < 1 then Cell.num .nan
       else if [(0 : ℚ), 5].getD (1 - 1) 0 = 0 then
         (if [(0 : ℚ), 5].getD 1 0 = 0 then Cell.num .nan
          else if 0 < [(0 : ℚ), 5].getD 1 0 then Cell.num .pinf else Cell.num .ninf)
       else Cell.num (.fin ((([(0 : ℚ), 5].getD 1 0 - [(0 : ℚ), 5].getD (1 - 1) 0) /
         [(0 : ℚ), 5].getD (1 - 1) 0) * 100))) :=
  c7_amended_rate_of_change_cases (DataPreprocessor.mk zeroStartDF) "LFPR" 1 [0, 5] 1
    (by decide) (by decide) (by decide) (by decide) (by decide)
